import Mathlib

/-!
# Verification of the LinkedIn Machine bot (`src/app.js`)

Shallow embedding of the first (and authoritative, per the claim line
numbers) variant of `src/app.js`: a Slack bot that detects LinkedIn post
URLs in messages, persists two JSON log files, and generates content via
an external text/image service.  External services (Slack API, OpenAI)
are modelled as call outcomes (`ApiResult`); the JavaScript runtime
pieces the persistence layer relies on (`JSON.stringify(v, null, 2)` and
`JSON.parse`) are embedded as executable Lean functions over a JSON value
type, since the round-trip claims are about them.
-/

set_option maxRecDepth 4000

namespace LinkedinMachine

/-- Outcome of a call to an external service (Slack or OpenAI): either a
successful value or a thrown error (the code only ever inspects success
values and catches all errors, so the error payload is irrelevant). -/
inductive ApiResult (α : Type) where
  | ok (val : α)
  | err
deriving DecidableEq, Repr

/-! ## JSON values

`JSON.stringify`/`JSON.parse` as used by `loadData`/`saveData`.  Mutual
inductives (instead of a nested `List`) keep all recursions structural.
Numbers are kept as their raw lexeme: the two logs of this program only
ever contain strings and `null`, so no numeric value is ever interpreted,
but the parser must still accept numeric tokens to model `JSON.parse`
faithfully on arbitrary files. -/

mutual
inductive Json where
  | null : Json
  | bool (b : Bool) : Json
  | num (lexeme : String) : Json
  | str (s : String) : Json
  | arr (items : JItems) : Json
  | obj (fields : JFields) : Json
deriving DecidableEq, Repr

inductive JItems where
  | nil : JItems
  | cons (v : Json) (tl : JItems) : JItems
deriving DecidableEq, Repr

inductive JFields where
  | nil : JFields
  | cons (k : String) (v : Json) (tl : JFields) : JFields
deriving DecidableEq, Repr
end

def JItems.length : JItems → Nat
  | .nil => 0
  | .cons _ tl => 1 + tl.length

def JItems.ofList : List Json → JItems
  | [] => .nil
  | v :: vs => .cons v (JItems.ofList vs)

def JFields.ofList : List (String × Json) → JFields
  | [] => .nil
  | (k, v) :: fs => .cons k v (JFields.ofList fs)

/-! ## `JSON.stringify(value, null, 2)` -/

/-- Lower-case hex digit, as emitted by `JSON.stringify` in `\u00XX`
escapes. -/
def hexDigitChar (n : Nat) : Char :=
  if n < 10 then Char.ofNat (48 + n) else Char.ofNat (87 + n)

/-- The escape sequence `JSON.stringify` emits for one character of a
string value. -/
def escChar (c : Char) : List Char :=
  if c = '"' then ['\\', '"']
  else if c = '\\' then ['\\', '\\']
  else if c = '\x08' then ['\\', 'b']
  else if c = '\x0c' then ['\\', 'f']
  else if c = '\n' then ['\\', 'n']
  else if c = '\r' then ['\\', 'r']
  else if c = '\t' then ['\\', 't']
  else if c.toNat < 32 then
    ['\\', 'u', '0', '0', hexDigitChar (c.toNat / 16), hexDigitChar (c.toNat % 16)]
  else [c]

def escList : List Char → List Char
  | [] => []
  | c :: cs => escChar c ++ escList cs

/-- A serialized JSON string: quote, escaped characters, quote. -/
def serStr (cs : List Char) : List Char :=
  '"' :: (escList cs ++ ['"'])

/-- `n` spaces of indentation. -/
def indentChars (n : Nat) : List Char := List.replicate n ' '

def litNull : List Char := ['n', 'u', 'l', 'l']

def litTrue : List Char := ['t', 'r', 'u', 'e']

def litFalse : List Char := ['f', 'a', 'l', 's', 'e']

mutual
/-- `JSON.stringify(v, null, 2)` at ambient indentation `ind`. -/
def serVal (ind : Nat) : Json → List Char
  | .null => litNull
  | .bool true => litTrue
  | .bool false => litFalse
  | .num lx => lx.data
  | .str s => serStr s.data
  | .arr .nil => ['[', ']']
  | .arr (.cons v vs) =>
      '[' :: '\n' :: (serItems ind (.cons v vs) ++ '\n' :: (indentChars ind ++ [']']))
  | .obj .nil => ['\x7b', '\x7d']
  | .obj (.cons k v fs) =>
      '\x7b' :: '\n' :: (serFields ind (.cons k v fs) ++ '\n' :: (indentChars ind ++ ['\x7d']))

/-- Array items, one per line at indentation `ind + 2`, comma separated. -/
def serItems (ind : Nat) : JItems → List Char
  | .nil => []
  | .cons v vs =>
      indentChars (ind + 2) ++ serVal (ind + 2) v ++
        (match vs with
         | .nil => []
         | .cons _ _ => ',' :: '\n' :: serItems ind vs)

/-- Object fields, one `"key": value` per line at indentation `ind + 2`. -/
def serFields (ind : Nat) : JFields → List Char
  | .nil => []
  | .cons k v fs =>
      indentChars (ind + 2) ++ serStr k.data ++ ':' :: ' ' :: serVal (ind + 2) v ++
        (match fs with
         | .nil => []
         | .cons _ _ _ => ',' :: '\n' :: serFields ind fs)
end

/-- `JSON.stringify(v, null, 2)` as a `String`. -/
def stringify (v : Json) : String := String.mk (serVal 0 v)

/-! ## `JSON.parse` -/

/-- JSON insignificant whitespace (space, tab, line feed, carriage return). -/
def isWs (c : Char) : Bool := c = ' ' || c = '\t' || c = '\n' || c = '\r'

def skipWs : List Char → List Char
  | [] => []
  | c :: t => if isWs c then skipWs t else c :: t

/-- Value of one hex digit (both cases accepted, as by `JSON.parse`). -/
def hexVal (c : Char) : Option Nat :=
  if '0' ≤ c ∧ c ≤ '9' then some (c.toNat - 48)
  else if 'a' ≤ c ∧ c ≤ 'f' then some (c.toNat - 87)
  else if 'A' ≤ c ∧ c ≤ 'F' then some (c.toNat - 55)
  else none

/-- Parse the body of a JSON string (the opening quote already consumed),
returning the decoded characters and the input after the closing quote.
Raw control characters are rejected, escapes are decoded. -/
def parseStrBody : List Char → Option (List Char × List Char)
  | [] => none
  | c :: rest =>
    if c = '"' then some ([], rest)
    else if c = '\\' then
      match rest with
      | [] => none
      | e :: rest2 =>
        if e = '"' then (parseStrBody rest2).map (fun p => ('"' :: p.1, p.2))
        else if e = '\\' then (parseStrBody rest2).map (fun p => ('\\' :: p.1, p.2))
        else if e = '/' then (parseStrBody rest2).map (fun p => ('/' :: p.1, p.2))
        else if e = 'b' then (parseStrBody rest2).map (fun p => ('\x08' :: p.1, p.2))
        else if e = 'f' then (parseStrBody rest2).map (fun p => ('\x0c' :: p.1, p.2))
        else if e = 'n' then (parseStrBody rest2).map (fun p => ('\n' :: p.1, p.2))
        else if e = 'r' then (parseStrBody rest2).map (fun p => ('\r' :: p.1, p.2))
        else if e = 't' then (parseStrBody rest2).map (fun p => ('\t' :: p.1, p.2))
        else if e = 'u' then
          match rest2 with
          | h1 :: h2 :: h3 :: h4 :: rest3 =>
            match hexVal h1, hexVal h2, hexVal h3, hexVal h4 with
            | some n1, some n2, some n3, some n4 =>
              (parseStrBody rest3).map
                (fun p => (Char.ofNat (((n1 * 16 + n2) * 16 + n3) * 16 + n4) :: p.1, p.2))
            | _, _, _, _ => none
          | _ => none
        else none
    else if c.toNat < 32 then none
    else (parseStrBody rest).map (fun p => (c :: p.1, p.2))

/-- Maximal run of decimal digits. -/
def digitRun : List Char → List Char × List Char
  | [] => ([], [])
  | c :: t =>
    if c.isDigit then
      let p := digitRun t
      (c :: p.1, p.2)
    else ([], c :: t)

/-- Fraction part of a JSON number (possibly empty). -/
def numFrac : List Char → Option (List Char × List Char)
  | '.' :: t =>
    match digitRun t with
    | ([], _) => none
    | (d, r) => some ('.' :: d, r)
  | s => some ([], s)

/-- Exponent part of a JSON number (possibly empty). -/
def numExp (s : List Char) : Option (List Char × List Char) :=
  match s with
  | c :: t =>
    if c = 'e' ∨ c = 'E' then
      let sg : List Char × List Char :=
        match t with
        | '+' :: u => (['+'], u)
        | '-' :: u => (['-'], u)
        | _ => ([], t)
      match digitRun sg.2 with
      | ([], _) => none
      | (d, r) => some (c :: (sg.1 ++ d), r)
    else some ([], c :: t)
  | [] => some ([], [])

/-- Parse a JSON number token, keeping its raw lexeme. -/
def parseNum (s : List Char) : Option (Json × List Char) :=
  let sgn : List Char × List Char :=
    match s with
    | '-' :: t => (['-'], t)
    | _ => ([], s)
  match sgn.2 with
  | [] => none
  | c :: t =>
    if c.isDigit then
      let ip : List Char × List Char :=
        if c = '0' then (['0'], t)
        else
          let p := digitRun t
          (c :: p.1, p.2)
      match numFrac ip.2 with
      | none => none
      | some (f, s3) =>
        match numExp s3 with
        | none => none
        | some (e, s4) => some (.num (String.mk (sgn.1 ++ ip.1 ++ f ++ e)), s4)
    else none

mutual
/-- Parse one JSON value (fuel-indexed; any fuel at least the value's
nesting budget `jfuel` gives the value, see the round-trip lemmas). -/
def parseVal (f : Nat) (s : List Char) : Option (Json × List Char) :=
  match f with
  | 0 => none
  | g + 1 =>
    match skipWs s with
    | [] => none
    | c :: rest =>
      if c = 'n' then
        match rest with
        | 'u' :: 'l' :: 'l' :: r => some (.null, r)
        | _ => none
      else if c = 't' then
        match rest with
        | 'r' :: 'u' :: 'e' :: r => some (.bool true, r)
        | _ => none
      else if c = 'f' then
        match rest with
        | 'a' :: 'l' :: 's' :: 'e' :: r => some (.bool false, r)
        | _ => none
      else if c = '"' then
        (parseStrBody rest).map (fun p => (.str (String.mk p.1), p.2))
      else if c = '[' then
        match skipWs rest with
        | ']' :: r => some (.arr .nil, r)
        | _ => (parseItems g rest).map (fun p => (.arr p.1, p.2))
      else if c = '\x7b' then
        match skipWs rest with
        | '\x7d' :: r => some (.obj .nil, r)
        | _ => (parseFields g rest).map (fun p => (.obj p.1, p.2))
      else if c = '-' ∨ c.isDigit then parseNum (c :: rest)
      else none

/-- Parse the items of a non-empty JSON array, consuming the closing `]`. -/
def parseItems (f : Nat) (s : List Char) : Option (JItems × List Char) :=
  match f with
  | 0 => none
  | g + 1 =>
    match parseVal g s with
    | none => none
    | some (v, r) =>
      match skipWs r with
      | ',' :: r2 =>
        match parseItems g r2 with
        | none => none
        | some (vs, r3) => some (.cons v vs, r3)
      | ']' :: r2 => some (.cons v .nil, r2)
      | _ => none

/-- Parse the fields of a non-empty JSON object, consuming the closing
brace. -/
def parseFields (f : Nat) (s : List Char) : Option (JFields × List Char) :=
  match f with
  | 0 => none
  | g + 1 =>
    match skipWs s with
    | '"' :: r =>
      match parseStrBody r with
      | none => none
      | some (k, r2) =>
        match skipWs r2 with
        | ':' :: r3 =>
          match parseVal g r3 with
          | none => none
          | some (v, r4) =>
            match skipWs r4 with
            | ',' :: r5 =>
              match parseFields g r5 with
              | none => none
              | some (fs, r6) => some (.cons (String.mk k) v fs, r6)
            | '\x7d' :: r5 => some (.cons (String.mk k) v .nil, r5)
            | _ => none
        | _ => none
    | _ => none
end

/-- `JSON.parse`: parse one value, allow only trailing whitespace.  The
fuel `length + 1` is always sufficient: the parser burns fuel only when
it has consumed at least one character of the input (see `jfuel_le` and
the round-trip theorems). -/
def parseTop (cs : List Char) : Option Json :=
  match parseVal (cs.length + 1) cs with
  | some (v, r) => if skipWs r = [] then some v else none
  | none => none

/-! ## The Persistent Log Store (`loadData` / `saveData`) -/

/-- `loadData(filename)`: the backing file is `none` when absent or
unreadable (the read throws); a file that `JSON.parse` rejects also
lands in the `catch` branch.  Both produce the empty array `[]`. -/
def loadData (file : Option String) : Json :=
  match file with
  | none => .arr .nil
  | some s =>
    match parseTop s.data with
    | some v => v
    | none => .arr .nil

/-- `saveData(filename, data)`: the content written,
`JSON.stringify(data, null, 2)`. -/
def saveData (data : Json) : String := stringify data

/-- Effect of `saveData` on the backing file: overwrite on success; on a
write failure the error is caught, logged, and the function returns
normally, leaving the file as it was.  Returns (file after, whether an
error was logged). -/
def saveDataFs (writeOk : Bool) (content : String) (file : Option String) :
    Option String × Bool :=
  if writeOk then (some content, false) else (file, true)

/-! ## Round-trip of the serializer through the parser -/

mutual
/-- Values whose serialization the round-trip theorems cover: everything
except raw number lexemes (the two logs of this program contain only
strings, nulls, arrays and objects). -/
def wfJ : Json → Bool
  | .null => true
  | .bool _ => true
  | .num _ => false
  | .str _ => true
  | .arr items => wfItems items
  | .obj fs => wfFields fs

def wfItems : JItems → Bool
  | .nil => true
  | .cons v vs => wfJ v && wfItems vs

def wfFields : JFields → Bool
  | .nil => true
  | .cons _ v fs => wfJ v && wfFields fs
end

mutual
/-- Fuel sufficient for `parseVal` to parse the serialization of `v`. -/
def jfuel : Json → Nat
  | .null => 1
  | .bool _ => 1
  | .num _ => 1
  | .str _ => 1
  | .arr items => 1 + jfuelItems items
  | .obj fs => 1 + jfuelFields fs

def jfuelItems : JItems → Nat
  | .nil => 1
  | .cons v vs => 1 + jfuel v + jfuelItems vs

def jfuelFields : JFields → Nat
  | .nil => 1
  | .cons _ v fs => 1 + jfuel v + jfuelFields fs
end

theorem skipWs_not_ws {c : Char} (h : isWs c = false) (s : List Char) :
    skipWs (c :: s) = c :: s := by
  simp [skipWs, h]

theorem skipWs_ws {c : Char} (h : isWs c = true) (s : List Char) :
    skipWs (c :: s) = skipWs s := by
  simp [skipWs, h]

theorem skipWs_newline (s : List Char) : skipWs ('\n' :: s) = skipWs s :=
  skipWs_ws (by decide) s

theorem skipWs_space (s : List Char) : skipWs (' ' :: s) = skipWs s :=
  skipWs_ws (by decide) s

theorem skipWs_indentChars (n : Nat) (s : List Char) :
    skipWs (indentChars n ++ s) = skipWs s := by
  induction n with
  | zero => simp [indentChars]
  | succ m ih =>
    simp only [indentChars, List.replicate_succ, List.cons_append]
    rw [skipWs_space]
    exact ih

/-- `parseVal` only looks at its input through `skipWs`. -/
theorem parseVal_congr (f : Nat) {a b : List Char} (h : skipWs a = skipWs b) :
    parseVal f a = parseVal f b := by
  cases f with
  | zero => rfl
  | succ g => unfold parseVal; rw [h]

theorem hexVal_hexDigitChar : ∀ n < 16, hexVal (hexDigitChar n) = some n := by decide

theorem charOfNat_toNat {c : Char} (h : c.toNat < 32) : Char.ofNat c.toNat = c := by
  unfold Char.ofNat
  split
  · exact Char.eq_of_val_eq (by simp [Char.toNat] at *; rfl)
  · rename_i hn
    exact absurd (Or.inl (by omega : c.toNat < 0xd800)) hn

/-- Decoding inverts the escaping of a single character. -/
theorem parseStrBody_escChar (c : Char) (cs rest tail : List Char)
    (ih : parseStrBody tail = some (cs, rest)) :
    parseStrBody (escChar c ++ tail) = some (c :: cs, rest) := by
  by_cases h1 : c = '"'
  · subst h1
    rw [show escChar '"' ++ tail = '\\' :: '"' :: tail by simp [escChar]]
    conv_lhs => unfold parseStrBody
    simp [ih]
  by_cases h2 : c = '\\'
  · subst h2
    rw [show escChar '\\' ++ tail = '\\' :: '\\' :: tail by simp [escChar]]
    conv_lhs => unfold parseStrBody
    simp [ih]
  by_cases h3 : c = '\x08'
  · subst h3
    rw [show escChar '\x08' ++ tail = '\\' :: 'b' :: tail by simp [escChar]]
    conv_lhs => unfold parseStrBody
    simp [ih]
  by_cases h4 : c = '\x0c'
  · subst h4
    rw [show escChar '\x0c' ++ tail = '\\' :: 'f' :: tail by simp [escChar]]
    conv_lhs => unfold parseStrBody
    simp [ih]
  by_cases h5 : c = '\n'
  · subst h5
    rw [show escChar '\n' ++ tail = '\\' :: 'n' :: tail by simp [escChar]]
    conv_lhs => unfold parseStrBody
    simp [ih]
  by_cases h6 : c = '\r'
  · subst h6
    rw [show escChar '\r' ++ tail = '\\' :: 'r' :: tail by simp [escChar]]
    conv_lhs => unfold parseStrBody
    simp [ih]
  by_cases h7 : c = '\t'
  · subst h7
    rw [show escChar '\t' ++ tail = '\\' :: 't' :: tail by simp [escChar]]
    conv_lhs => unfold parseStrBody
    simp [ih]
  by_cases h8 : c.toNat < 32
  · have hd1 : hexVal (hexDigitChar (c.toNat / 16)) = some (c.toNat / 16) :=
      hexVal_hexDigitChar _ (by omega)
    have hd2 : hexVal (hexDigitChar (c.toNat % 16)) = some (c.toNat % 16) :=
      hexVal_hexDigitChar _ (by omega)
    have h0 : hexVal '0' = some 0 := by decide
    rw [show escChar c ++ tail
          = '\\' :: 'u' :: '0' :: '0' :: hexDigitChar (c.toNat / 16)
              :: hexDigitChar (c.toNat % 16) :: tail by
        simp [escChar, h1, h2, h3, h4, h5, h6, h7, h8]]
    conv_lhs => unfold parseStrBody
    simp only [ih]
    simp [h0, hd1, hd2, ih]
    rw [show c.toNat / 16 * 16 + c.toNat % 16 = c.toNat by omega]
    simp [charOfNat_toNat h8]
  · rw [show escChar c ++ tail = c :: tail by simp [escChar, h1, h2, h3, h4, h5, h6, h7, h8]]
    conv_lhs => unfold parseStrBody
    simp [h1, h2, h8, ih]

/-- Decoding inverts escaping for a whole string body. -/
theorem parseStrBody_escList (cs rest : List Char) :
    parseStrBody (escList cs ++ '"' :: rest) = some (cs, rest) := by
  induction cs with
  | nil =>
    rw [show escList [] ++ '"' :: rest = '"' :: rest by simp [escList]]
    conv_lhs => unfold parseStrBody
    simp
  | cons c cs ih =>
    have : escList (c :: cs) ++ '"' :: rest = escChar c ++ (escList cs ++ '"' :: rest) := by
      simp [escList]
    rw [this]
    exact parseStrBody_escChar c cs rest _ ih

/-- The serialization of a well-formed value starts with a non-whitespace
character that is not a closing bracket. -/
theorem serVal_head (ind : Nat) (v : Json) (hwf : wfJ v = true) :
    ∃ c t, serVal ind v = c :: t ∧ isWs c = false ∧ c ≠ ']' ∧ c ≠ '\x7d' := by
  cases v with
  | null =>
    exact ⟨'n', ['u', 'l', 'l'], by simp [serVal, litNull], by decide, by decide, by decide⟩
  | bool b =>
    cases b with
    | false =>
      exact ⟨'f', ['a', 'l', 's', 'e'], by simp [serVal, litFalse], by decide, by decide,
        by decide⟩
    | true =>
      exact ⟨'t', ['r', 'u', 'e'], by simp [serVal, litTrue], by decide, by decide, by decide⟩
  | num lx => simp [wfJ] at hwf
  | str s =>
    exact ⟨'"', escList s.data ++ ['"'], by simp [serVal, serStr],
      by decide, by decide, by decide⟩
  | arr items =>
    cases items with
    | nil => exact ⟨'[', [']'], by simp [serVal], by decide, by decide, by decide⟩
    | cons v vs =>
      exact ⟨'[', '\n' :: (serItems ind (.cons v vs) ++ '\n' :: (indentChars ind ++ [']'])),
        by simp [serVal], by decide, by decide, by decide⟩
  | obj fs =>
    cases fs with
    | nil => exact ⟨'\x7b', ['\x7d'], by simp [serVal], by decide, by decide, by decide⟩
    | cons k v fs =>
      exact ⟨'\x7b',
        '\n' :: (serFields ind (.cons k v fs) ++ '\n' :: (indentChars ind ++ ['\x7d'])),
        by simp [serVal], by decide, by decide, by decide⟩

/-- The separator-plus-remaining-items part of a serialized array after
one item: empty for the last item, comma plus newline plus the rest
otherwise. -/
def serSep (ind : Nat) : JItems → List Char
  | .nil => []
  | .cons v vs => ',' :: '\n' :: serItems ind (.cons v vs)

/-- Same for object fields. -/
def serFSep (ind : Nat) : JFields → List Char
  | .nil => []
  | .cons k v fs => ',' :: '\n' :: serFields ind (.cons k v fs)

theorem serSep_cons (ind : Nat) (v : Json) (vs : JItems) :
    serSep ind (.cons v vs) = ',' :: '\n' :: serItems ind (.cons v vs) := rfl

theorem serFSep_cons (ind : Nat) (k : String) (v : Json) (fs : JFields) :
    serFSep ind (.cons k v fs) = ',' :: '\n' :: serFields ind (.cons k v fs) := rfl

theorem serItems_cons (ind : Nat) (v : Json) (vs : JItems) :
    serItems ind (.cons v vs) =
      indentChars (ind + 2) ++ (serVal (ind + 2) v ++ serSep ind vs) := by
  cases vs <;> simp [serItems, serSep]

theorem serFields_cons (ind : Nat) (k : String) (v : Json) (fs : JFields) :
    serFields ind (.cons k v fs) =
      indentChars (ind + 2) ++ ('"' :: (escList k.data ++
        ('"' :: (':' :: (' ' :: (serVal (ind + 2) v ++ serFSep ind fs)))))) := by
  cases fs <;> simp [serFields, serFSep, serStr, List.append_assoc]

/-- Unfolding of `parseVal` on an input starting with `[`. -/
theorem parseVal_arr (g : Nat) (L : List Char) :
    parseVal (g + 1) ('[' :: L) =
      (match skipWs L with
       | ']' :: r => some (.arr .nil, r)
       | _ => (parseItems g L).map (fun p => (.arr p.1, p.2))) := by
  conv_lhs => unfold parseVal
  rw [skipWs_not_ws (by decide)]
  simp

/-- Unfolding of `parseVal` on an input starting with an opening brace. -/
theorem parseVal_obj (g : Nat) (L : List Char) :
    parseVal (g + 1) ('\x7b' :: L) =
      (match skipWs L with
       | '\x7d' :: r => some (.obj .nil, r)
       | _ => (parseFields g L).map (fun p => (.obj p.1, p.2))) := by
  conv_lhs => unfold parseVal
  rw [skipWs_not_ws (by decide)]
  simp

mutual
/-- Parsing inverts serialization on well-formed values, for any
sufficient fuel, with an arbitrary unparsed suffix. -/
theorem rtVal (v : Json) : ∀ (f : Nat), wfJ v = true → jfuel v ≤ f →
    ∀ (ind : Nat) (rest : List Char),
    parseVal f (serVal ind v ++ rest) = some (v, rest) := by
  cases v with
  | null =>
    intro f hwf hf ind rest
    cases f with
    | zero => simp [jfuel] at hf
    | succ g =>
      conv_lhs => unfold parseVal
      simp [serVal, litNull, litTrue, litFalse, skipWs, isWs]
  | bool b =>
    intro f hwf hf ind rest
    cases f with
    | zero => simp [jfuel] at hf
    | succ g =>
      cases b with
      | false =>
        conv_lhs => unfold parseVal
        simp [serVal, litNull, litTrue, litFalse, skipWs, isWs]
      | true =>
        conv_lhs => unfold parseVal
        simp [serVal, litNull, litTrue, litFalse, skipWs, isWs]
  | num lx => intro f hwf; simp [wfJ] at hwf
  | str s =>
    intro f hwf hf ind rest
    cases f with
    | zero => simp [jfuel] at hf
    | succ g =>
      obtain ⟨d⟩ := s
      conv_lhs => unfold parseVal
      simp only [serVal, serStr, List.cons_append, List.append_assoc,
        List.singleton_append]
      rw [skipWs_not_ws (by decide)]
      simp [parseStrBody_escList]
  | arr items =>
    cases items with
    | nil =>
      intro f hwf hf ind rest
      cases f with
      | zero => simp [jfuel] at hf
      | succ g =>
        conv_lhs => unfold parseVal
        simp [serVal, litNull, litTrue, litFalse, skipWs, isWs]
    | cons v vs =>
      intro f hwf hf ind rest
      cases f with
      | zero => simp [jfuel, jfuelItems] at hf
      | succ g =>
        have hwf1 : wfJ v = true ∧ wfItems vs = true := by
          simpa [wfJ, wfItems] using hwf
        have hfg : jfuelItems (.cons v vs) ≤ g := by
          simp [jfuel] at hf; omega
        rw [show serVal ind (.arr (.cons v vs)) ++ rest =
            '[' :: ('\n' :: (serItems ind (.cons v vs) ++
              '\n' :: (indentChars ind ++ ']' :: rest))) from by
          simp [serVal]]
        rw [parseVal_arr]
        obtain ⟨h, t, hser, hnw, hne1, hne2⟩ := serVal_head (ind + 2) v hwf1.1
        have hsk : skipWs ('\n' :: (serItems ind (.cons v vs) ++
            '\n' :: (indentChars ind ++ ']' :: rest))) =
            h :: (t ++ (serSep ind vs ++ '\n' :: (indentChars ind ++ ']' :: rest))) := by
          rw [skipWs_newline, serItems_cons]
          simp only [List.append_assoc]
          rw [skipWs_indentChars, hser]
          simp only [List.cons_append]
          rw [skipWs_not_ws hnw]
        rw [hsk]
        split
        · rename_i r heq
          injection heq with hh ht
          exact absurd hh hne1
        · rw [rtItems (.cons v vs) v vs rfl
            (by simp [wfItems, hwf1.1, hwf1.2]) g hfg ind rest]
          rfl
  | obj fs =>
    cases fs with
    | nil =>
      intro f hwf hf ind rest
      cases f with
      | zero => simp [jfuel] at hf
      | succ g =>
        conv_lhs => unfold parseVal
        simp [serVal, litNull, litTrue, litFalse, skipWs, isWs]
    | cons k v fs =>
      intro f hwf hf ind rest
      cases f with
      | zero => simp [jfuel, jfuelFields] at hf
      | succ g =>
        have hwf1 : wfJ v = true ∧ wfFields fs = true := by
          simpa [wfJ, wfFields] using hwf
        have hfg : jfuelFields (.cons k v fs) ≤ g := by
          simp [jfuel] at hf; omega
        rw [show serVal ind (.obj (.cons k v fs)) ++ rest =
            '\x7b' :: ('\n' :: (serFields ind (.cons k v fs) ++
              '\n' :: (indentChars ind ++ '\x7d' :: rest))) from by
          simp [serVal]]
        rw [parseVal_obj]
        have hsk : skipWs ('\n' :: (serFields ind (.cons k v fs) ++
            '\n' :: (indentChars ind ++ '\x7d' :: rest))) =
            '"' :: (escList k.data ++
              ('"' :: (':' :: (' ' :: (serVal (ind + 2) v ++
                (serFSep ind fs ++ '\n' :: (indentChars ind ++ '\x7d' :: rest))))))) := by
          rw [skipWs_newline, serFields_cons]
          simp only [List.append_assoc, List.cons_append]
          rw [skipWs_indentChars]
          rw [skipWs_not_ws (by decide)]
        rw [hsk]
        split
        · rename_i r heq
          injection heq with hh ht
          exact absurd hh (by decide)
        · rw [rtFields (.cons k v fs) k v fs rfl
            (by simp [wfFields, hwf1.1, hwf1.2]) g hfg ind rest]
          rfl

/-- Parsing the serialized items of a non-empty array (preceded by the
newline the array serializer emits, followed by the closing line). -/
theorem rtItems (items : JItems) : ∀ (v : Json) (vs : JItems), items = .cons v vs →
    wfItems items = true → ∀ (f : Nat), jfuelItems items ≤ f →
    ∀ (ind : Nat) (rest : List Char),
    parseItems f ('\n' :: (serItems ind (.cons v vs) ++
        '\n' :: (indentChars ind ++ ']' :: rest))) = some (.cons v vs, rest) := by
  cases items with
  | nil => intro v vs heq; exact absurd heq (by simp)
  | cons v vs =>
    intro v' vs' heq hwf f hf ind rest
    injection heq with h1 h2
    subst h1
    subst h2
    cases f with
    | zero => simp [jfuelItems] at hf
    | succ g =>
      have hwf1 : wfJ v = true ∧ wfItems vs = true := by
        simpa [wfItems] using hwf
      have hjv : jfuel v ≤ g := by simp [jfuelItems] at hf; omega
      conv_lhs => unfold parseItems
      cases vs with
      | nil =>
        have hval : parseVal g ('\n' :: (serItems ind (.cons v .nil) ++
            '\n' :: (indentChars ind ++ ']' :: rest))) =
            some (v, '\n' :: (indentChars ind ++ ']' :: rest)) := by
          rw [parseVal_congr g (b := serVal (ind + 2) v ++
              ('\n' :: (indentChars ind ++ ']' :: rest)))]
          · exact rtVal v g hwf1.1 hjv (ind + 2) _
          · rw [skipWs_newline, serItems_cons]
            simp only [serSep, List.append_nil, List.append_assoc]
            rw [skipWs_indentChars]
        have htail : skipWs ('\n' :: (indentChars ind ++ ']' :: rest)) = ']' :: rest := by
          rw [skipWs_newline, skipWs_indentChars, skipWs_not_ws (by decide)]
        simp [hval, htail]
      | cons v2 vs2 =>
        have hjvs : jfuelItems (.cons v2 vs2) ≤ g := by
          simp [jfuelItems] at hf ⊢; omega
        have hval : parseVal g ('\n' :: (serItems ind (.cons v (.cons v2 vs2)) ++
            '\n' :: (indentChars ind ++ ']' :: rest))) =
            some (v, ',' :: ('\n' :: (serItems ind (.cons v2 vs2) ++
              '\n' :: (indentChars ind ++ ']' :: rest)))) := by
          rw [parseVal_congr g (b := serVal (ind + 2) v ++
              (',' :: ('\n' :: (serItems ind (.cons v2 vs2) ++
                '\n' :: (indentChars ind ++ ']' :: rest)))))]
          · exact rtVal v g hwf1.1 hjv (ind + 2) _
          · rw [skipWs_newline, serItems_cons]
            simp only [serSep, List.append_assoc, List.cons_append]
            rw [skipWs_indentChars]
        have hcomma : skipWs (',' :: ('\n' :: (serItems ind (.cons v2 vs2) ++
            '\n' :: (indentChars ind ++ ']' :: rest)))) =
            ',' :: ('\n' :: (serItems ind (.cons v2 vs2) ++
              '\n' :: (indentChars ind ++ ']' :: rest))) :=
          skipWs_not_ws (by decide) _
        have hrec : parseItems g ('\n' :: (serItems ind (.cons v2 vs2) ++
            '\n' :: (indentChars ind ++ ']' :: rest))) =
            some (.cons v2 vs2, rest) :=
          rtItems (.cons v2 vs2) v2 vs2 rfl hwf1.2 g hjvs ind rest
        simp [hval, hcomma, hrec]

/-- Parsing the serialized fields of a non-empty object (preceded by the
newline the object serializer emits, followed by the closing line). -/
theorem rtFields (fields : JFields) : ∀ (k : String) (v : Json) (fs : JFields),
    fields = .cons k v fs →
    wfFields fields = true → ∀ (f : Nat), jfuelFields fields ≤ f →
    ∀ (ind : Nat) (rest : List Char),
    parseFields f ('\n' :: (serFields ind (.cons k v fs) ++
        '\n' :: (indentChars ind ++ '\x7d' :: rest))) = some (.cons k v fs, rest) := by
  cases fields with
  | nil => intro k v fs heq; exact absurd heq (by simp)
  | cons k v fs =>
    intro k' v' fs' heq hwf f hf ind rest
    injection heq with h1 h2 h3
    subst h1
    subst h2
    subst h3
    cases f with
    | zero => simp [jfuelFields] at hf
    | succ g =>
      have hwf1 : wfJ v = true ∧ wfFields fs = true := by
        simpa [wfFields] using hwf
      have hjv : jfuel v ≤ g := by simp [jfuelFields] at hf; omega
      conv_lhs => unfold parseFields
      cases fs with
      | nil =>
        have hsk : skipWs ('\n' :: (serFields ind (.cons k v .nil) ++
            '\n' :: (indentChars ind ++ '\x7d' :: rest))) =
            '"' :: (escList k.data ++ ('"' :: (':' :: (' ' :: (serVal (ind + 2) v ++
              ('\n' :: (indentChars ind ++ '\x7d' :: rest))))))) := by
          rw [skipWs_newline, serFields_cons]
          simp only [serFSep, List.append_nil, List.append_assoc, List.cons_append]
          rw [skipWs_indentChars]
          rw [skipWs_not_ws (by decide)]
        have hkey : parseStrBody (escList k.data ++ ('"' :: (':' :: (' ' ::
            (serVal (ind + 2) v ++ ('\n' :: (indentChars ind ++ '\x7d' :: rest))))))) =
            some (k.data, ':' :: (' ' :: (serVal (ind + 2) v ++
              ('\n' :: (indentChars ind ++ '\x7d' :: rest))))) :=
          parseStrBody_escList k.data _
        have hcolon : skipWs (':' :: (' ' :: (serVal (ind + 2) v ++
            ('\n' :: (indentChars ind ++ '\x7d' :: rest))))) =
            ':' :: (' ' :: (serVal (ind + 2) v ++
              ('\n' :: (indentChars ind ++ '\x7d' :: rest)))) :=
          skipWs_not_ws (by decide) _
        have hval : parseVal g (' ' :: (serVal (ind + 2) v ++
            ('\n' :: (indentChars ind ++ '\x7d' :: rest)))) =
            some (v, '\n' :: (indentChars ind ++ '\x7d' :: rest)) := by
          rw [parseVal_congr g (skipWs_space _)]
          exact rtVal v g hwf1.1 hjv (ind + 2) _
        have htail : skipWs ('\n' :: (indentChars ind ++ '\x7d' :: rest)) =
            '\x7d' :: rest := by
          rw [skipWs_newline, skipWs_indentChars, skipWs_not_ws (by decide)]
        have hmk : String.mk k.data = k := by cases k; rfl
        simp [hsk, hkey, hcolon, hval, htail, hmk]
      | cons k2 v2 fs2 =>
        have hjfs : jfuelFields (.cons k2 v2 fs2) ≤ g := by
          simp [jfuelFields] at hf ⊢; omega
        have hsk : skipWs ('\n' :: (serFields ind (.cons k v (.cons k2 v2 fs2)) ++
            '\n' :: (indentChars ind ++ '\x7d' :: rest))) =
            '"' :: (escList k.data ++ ('"' :: (':' :: (' ' :: (serVal (ind + 2) v ++
              (',' :: ('\n' :: (serFields ind (.cons k2 v2 fs2) ++
                '\n' :: (indentChars ind ++ '\x7d' :: rest))))))))) := by
          rw [skipWs_newline, serFields_cons]
          simp only [serFSep, List.append_assoc, List.cons_append]
          rw [skipWs_indentChars]
          rw [skipWs_not_ws (by decide)]
        have hkey : parseStrBody (escList k.data ++ ('"' :: (':' :: (' ' ::
            (serVal (ind + 2) v ++ (',' :: ('\n' :: (serFields ind (.cons k2 v2 fs2) ++
              '\n' :: (indentChars ind ++ '\x7d' :: rest))))))))) =
            some (k.data, ':' :: (' ' :: (serVal (ind + 2) v ++
              (',' :: ('\n' :: (serFields ind (.cons k2 v2 fs2) ++
                '\n' :: (indentChars ind ++ '\x7d' :: rest))))))) :=
          parseStrBody_escList k.data _
        have hcolon : skipWs (':' :: (' ' :: (serVal (ind + 2) v ++
            (',' :: ('\n' :: (serFields ind (.cons k2 v2 fs2) ++
              '\n' :: (indentChars ind ++ '\x7d' :: rest))))))) =
            ':' :: (' ' :: (serVal (ind + 2) v ++
              (',' :: ('\n' :: (serFields ind (.cons k2 v2 fs2) ++
                '\n' :: (indentChars ind ++ '\x7d' :: rest)))))) :=
          skipWs_not_ws (by decide) _
        have hval : parseVal g (' ' :: (serVal (ind + 2) v ++
            (',' :: ('\n' :: (serFields ind (.cons k2 v2 fs2) ++
              '\n' :: (indentChars ind ++ '\x7d' :: rest)))))) =
            some (v, ',' :: ('\n' :: (serFields ind (.cons k2 v2 fs2) ++
              '\n' :: (indentChars ind ++ '\x7d' :: rest)))) := by
          rw [parseVal_congr g (skipWs_space _)]
          exact rtVal v g hwf1.1 hjv (ind + 2) _
        have hcomma : skipWs (',' :: ('\n' :: (serFields ind (.cons k2 v2 fs2) ++
            '\n' :: (indentChars ind ++ '\x7d' :: rest)))) =
            ',' :: ('\n' :: (serFields ind (.cons k2 v2 fs2) ++
              '\n' :: (indentChars ind ++ '\x7d' :: rest))) :=
          skipWs_not_ws (by decide) _
        have hrec : parseFields g ('\n' :: (serFields ind (.cons k2 v2 fs2) ++
            '\n' :: (indentChars ind ++ '\x7d' :: rest))) =
            some (.cons k2 v2 fs2, rest) :=
          rtFields (.cons k2 v2 fs2) k2 v2 fs2 rfl hwf1.2 g hjfs ind rest
        have hmk : String.mk k.data = k := by cases k; rfl
        simp [hsk, hkey, hcolon, hval, hcomma, hrec, hmk]
end

mutual
/-- The fuel bound `jfuel` is dominated by the length of the
serialization (so the fuel `length + 1` used by `parseTop` suffices). -/
theorem jfuel_le (v : Json) : ∀ (ind : Nat), wfJ v = true →
    jfuel v ≤ (serVal ind v).length := by
  cases v with
  | null => intro ind hwf; simp [jfuel, serVal, litNull]
  | bool b => intro ind hwf; cases b <;> simp [jfuel, serVal, litTrue, litFalse]
  | num lx => intro ind hwf; simp [wfJ] at hwf
  | str s =>
    intro ind hwf
    simp [jfuel, serVal, serStr]
  | arr items =>
    cases items with
    | nil => intro ind hwf; simp [jfuel, jfuelItems, serVal]
    | cons v vs =>
      intro ind hwf
      have hi := jfuelItems_le (.cons v vs) ind (by simpa [wfJ] using hwf)
      simp only [jfuel, serVal]
      simp only [List.length_cons, List.length_append, indentChars,
        List.length_replicate, List.length_singleton]
      omega
  | obj fs =>
    cases fs with
    | nil => intro ind hwf; simp [jfuel, jfuelFields, serVal]
    | cons k v fs =>
      intro ind hwf
      have hi := jfuelFields_le (.cons k v fs) ind (by simpa [wfJ] using hwf)
      simp only [jfuel, serVal]
      simp only [List.length_cons, List.length_append, indentChars,
        List.length_replicate, List.length_singleton]
      omega

theorem jfuelItems_le (items : JItems) : ∀ (ind : Nat), wfItems items = true →
    jfuelItems items ≤ (serItems ind items).length + 1 := by
  cases items with
  | nil => intro ind hwf; simp [jfuelItems, serItems]
  | cons v vs =>
    intro ind hwf
    have hwf1 : wfJ v = true ∧ wfItems vs = true := by simpa [wfItems] using hwf
    have hv := jfuel_le v (ind + 2) hwf1.1
    cases vs with
    | nil =>
      simp only [jfuelItems, serItems_cons, serSep]
      simp only [List.length_append, List.length_nil, indentChars, List.length_replicate]
      omega
    | cons v2 vs2 =>
      have hvs := jfuelItems_le (.cons v2 vs2) ind hwf1.2
      simp only [jfuelItems] at hvs ⊢
      rw [serItems_cons, serSep_cons]
      simp only [List.length_append, List.length_cons, indentChars, List.length_replicate]
      omega

theorem jfuelFields_le (fields : JFields) : ∀ (ind : Nat), wfFields fields = true →
    jfuelFields fields ≤ (serFields ind fields).length + 1 := by
  cases fields with
  | nil => intro ind hwf; simp [jfuelFields, serFields]
  | cons k v fs =>
    intro ind hwf
    have hwf1 : wfJ v = true ∧ wfFields fs = true := by simpa [wfFields] using hwf
    have hv := jfuel_le v (ind + 2) hwf1.1
    cases fs with
    | nil =>
      simp only [jfuelFields, serFields_cons, serFSep]
      simp only [List.length_append, List.length_cons, List.length_nil, indentChars,
        List.length_replicate]
      omega
    | cons k2 v2 fs2 =>
      have hvs := jfuelFields_le (.cons k2 v2 fs2) ind hwf1.2
      simp only [jfuelFields] at hvs ⊢
      rw [serFields_cons, serFSep_cons]
      simp only [serStr, List.length_append, List.length_cons, indentChars,
        List.length_replicate]
      omega
end

/-- `JSON.parse` inverts `JSON.stringify(·, null, 2)` on well-formed
values. -/
theorem parseTop_stringify (v : Json) (hwf : wfJ v = true) :
    parseTop (stringify v).data = some v := by
  have hlen : jfuel v ≤ (serVal 0 v).length + 1 :=
    le_trans (jfuel_le v 0 hwf) (by omega)
  have h := rtVal v ((serVal 0 v).length + 1) hwf hlen 0 []
  rw [List.append_nil] at h
  unfold parseTop
  rw [show (stringify v).data = serVal 0 v from rfl]
  rw [h]
  simp [skipWs]

/-- Saving then loading a well-formed value returns it unchanged. -/
theorem loadData_saveData (v : Json) (hwf : wfJ v = true) :
    loadData (some (saveData v)) = v := by
  simp only [loadData, saveData, parseTop_stringify v hwf]

/-! ## The data model (§3 of the spec)

`SharedPost` records are created by the engagement listener;
`GeneratedPrompt` records by the two content-generation entry points.
Optional fields model JavaScript object keys that are simply absent on
some records (`JSON.stringify` omits them); `imageUrl` can additionally
be present-but-`null`, hence `Option (Option String)`. -/

structure SharedPost where
  url : String
  userId : String
  timestamp : String
  channel : String
  messageText : String
deriving DecidableEq, Repr

structure GeneratedPrompt where
  id : String
  content : String
  request : Option String
  type : Option String
  imageUrl : Option (Option String)
  imagePrompt : Option String
  timestamp : String
  channel : String
deriving DecidableEq, Repr

def JFields.append : JFields → JFields → JFields
  | .nil, b => b
  | .cons k v t, b => .cons k v (JFields.append t b)

/-- A field that is present only when the record carries the value
(`JSON.stringify` omits keys whose value is `undefined`). -/
def optField (name : String) : Option Json → JFields
  | none => .nil
  | some j => .cons name j .nil

/-- A JavaScript `string | null` value as JSON. -/
def jsonOfNullable : Option String → Json
  | none => .null
  | some s => .str s

/-- The JSON object a `SharedPost` record serializes to (key insertion
order as in the `posts.push({...})` literal of the message handler). -/
def SharedPost.toJson (p : SharedPost) : Json :=
  .obj (.cons "url" (.str p.url) (.cons "userId" (.str p.userId)
    (.cons "timestamp" (.str p.timestamp) (.cons "channel" (.str p.channel)
      (.cons "messageText" (.str p.messageText) .nil)))))

/-- The JSON object a `GeneratedPrompt` record serializes to (key
insertion order as in the two `prompts.push({...})` literals). -/
def GeneratedPrompt.toJson (p : GeneratedPrompt) : Json :=
  .obj (.cons "id" (.str p.id) (.cons "content" (.str p.content)
    (JFields.append (optField "request" (p.request.map .str))
      (JFields.append (optField "type" (p.type.map .str))
        (JFields.append (optField "imageUrl" (p.imageUrl.map jsonOfNullable))
          (JFields.append (optField "imagePrompt" (p.imagePrompt.map .str))
            (.cons "timestamp" (.str p.timestamp)
              (.cons "channel" (.str p.channel) .nil))))))))

/-- The full posts log as the JSON array stored in `posts.json`. -/
def postsJson (posts : List SharedPost) : Json :=
  .arr (JItems.ofList (posts.map SharedPost.toJson))

/-- The full prompts log as the JSON array stored in `prompts.json`. -/
def promptsJson (prompts : List GeneratedPrompt) : Json :=
  .arr (JItems.ofList (prompts.map GeneratedPrompt.toJson))

theorem wfFields_append (a : JFields) : ∀ b : JFields,
    wfFields (JFields.append a b) = (wfFields a && wfFields b) := by
  cases a with
  | nil => intro b; simp [JFields.append, wfFields]
  | cons k v t =>
    intro b
    have ih := wfFields_append t b
    simp [JFields.append, wfFields, ih, Bool.and_assoc]

theorem wfFields_optField_str (name : String) (o : Option String) :
    wfFields (optField name (o.map Json.str)) = true := by
  cases o <;> simp [optField, wfFields, wfJ]

theorem wfFields_optField_nullable (name : String) (o : Option (Option String)) :
    wfFields (optField name (o.map jsonOfNullable)) = true := by
  cases o with
  | none => simp [optField, wfFields]
  | some n => cases n <;> simp [optField, jsonOfNullable, wfFields, wfJ]

theorem wfJ_sharedPost (p : SharedPost) : wfJ p.toJson = true := by
  simp [SharedPost.toJson, wfJ, wfFields]

theorem wfJ_generatedPrompt (p : GeneratedPrompt) : wfJ p.toJson = true := by
  simp [GeneratedPrompt.toJson, wfJ, wfFields, wfFields_append,
    wfFields_optField_str, wfFields_optField_nullable]

theorem wfItems_ofList (l : List Json) (h : ∀ x ∈ l, wfJ x = true) :
    wfItems (JItems.ofList l) = true := by
  induction l with
  | nil => simp [JItems.ofList, wfItems]
  | cons x xs ih =>
    simp only [JItems.ofList, wfItems, Bool.and_eq_true]
    exact ⟨h x (by simp), ih (fun y hy => h y (by simp [hy]))⟩

theorem wfJ_postsJson (posts : List SharedPost) : wfJ (postsJson posts) = true := by
  simp only [postsJson, wfJ]
  exact wfItems_ofList _ (by intro x hx; obtain ⟨p, _, rfl⟩ := List.mem_map.mp hx
                             exact wfJ_sharedPost p)

theorem wfJ_promptsJson (prompts : List GeneratedPrompt) :
    wfJ (promptsJson prompts) = true := by
  simp only [promptsJson, wfJ]
  exact wfItems_ofList _ (by intro x hx; obtain ⟨p, _, rfl⟩ := List.mem_map.mp hx
                             exact wfJ_generatedPrompt p)

theorem JItems.length_ofList (l : List Json) : (JItems.ofList l).length = l.length := by
  induction l with
  | nil => rfl
  | cons x xs ih => simp [JItems.ofList, JItems.length, ih]; omega

/-! ## String utilities of the JavaScript runtime -/

/-- JavaScript whitespace: the class `\s` of the regex engine and the
character set trimmed by `String.prototype.trim`. -/
def isSpaceJS (c : Char) : Bool :=
  c = ' ' || c = '\t' || c = '\n' || c = '\r' || c = '\x0b' || c = '\x0c' ||
  c = '\u00a0' || c = '\u1680' || ('\u2000' ≤ c && c ≤ '\u200a') ||
  c = '\u2028' || c = '\u2029' || c = '\u202f' || c = '\u205f' ||
  c = '\u3000' || c = '\ufeff'

/-- `String.prototype.trim`. -/
def jsTrim (s : String) : String :=
  String.mk (((s.data.dropWhile isSpaceJS).reverse.dropWhile isSpaceJS).reverse)

/-- `String.prototype.toLowerCase`, faithful on the ASCII range (all the
keywords the code tests for are ASCII). -/
def lowerStr (s : String) : String := String.mk (s.data.map Char.toLower)

/-- `String.prototype.substring(0, 100)`. -/
def take100 (s : String) : String := String.mk (s.data.take 100)

/-- Consume a literal; returns the remaining input when the input starts
with the literal. -/
def dropLit : List Char → List Char → Option (List Char)
  | [], s => some s
  | _ :: _, [] => none
  | p :: ps, c :: cs => if c = p then dropLit ps cs else none

/-- `String.prototype.includes`. -/
def hasSub (pat : List Char) : List Char → Bool
  | [] => (dropLit pat ([] : List Char)).isSome
  | c :: t => (dropLit pat (c :: t)).isSome || hasSub pat t

def strIncludes (s pat : String) : Bool := hasSub pat.data s.data

/-! ## The Engagement Listener URL pattern

`/https:\/\/(www\.)?linkedin\.com\/posts\/[^\s]+/g` applied with
`String.prototype.match`: leftmost matches, scanning resumes after each
match, the greedy `[^\s]+` consumes the maximal non-whitespace run. -/

/-- Maximal non-whitespace run at the head of the input (`[^\s]+`,
greedy), with the rest. -/
def takeNonWs : List Char → List Char × List Char
  | [] => ([], [])
  | c :: t =>
    if isSpaceJS c then ([], c :: t)
    else
      let p := takeNonWs t
      (c :: p.1, p.2)

def urlHeadWww : List Char := "https://www.linkedin.com/posts/".data

def urlHeadBare : List Char := "https://linkedin.com/posts/".data

/-- Try the URL pattern anchored at the current position: the literal
head (greedy `(www\.)?` first, falling back to the bare head — after
`https://` the two alternatives are mutually exclusive) followed by at
least one non-whitespace character. -/
def tryMatchUrl (s : List Char) : Option (List Char × List Char) :=
  match dropLit urlHeadWww s with
  | some t =>
    match takeNonWs t with
    | ([], _) => none
    | (run, r) => some (urlHeadWww ++ run, r)
  | none =>
    match dropLit urlHeadBare s with
    | some t =>
      match takeNonWs t with
      | ([], _) => none
      | (run, r) => some (urlHeadBare ++ run, r)
    | none => none

/-- Global scan: try each position left to right, resuming after the end
of each match.  The fuel `length` suffices because every step consumes at
least one character. -/
def scanUrls : Nat → List Char → List String
  | 0, _ => []
  | _ + 1, [] => []
  | f + 1, c :: t =>
    match tryMatchUrl (c :: t) with
    | some (m, r) => String.mk m :: scanUrls f r
    | none => scanUrls f t

/-- `message.text.match(linkedinUrlRegex)`, as the (possibly empty) list
of matches in source order. -/
def linkedinUrlMatches (t : String) : List String := scanUrls t.data.length t.data

/-! ## Context Builder (§4.2) -/

/-- The fixed identity sentence opening both generation contexts. -/
def identityContext : String :=
  "You are helping a sales team at SendBlue.com create engaging LinkedIn content. SendBlue provides SMS/messaging APIs for businesses."

/-- `xs.slice(-n)`: the last `n` elements (all of them when fewer). -/
def lastN (n : Nat) (l : List α) : List α := l.drop (l.length - n)

/-- JavaScript property access `post.content` on a `SharedPost` record.
The records written by the engagement listener have keys `url`, `userId`,
`timestamp`, `channel`, `messageText` and no `content` key, so this
access yields `undefined`. -/
def SharedPost.contentProp (_ : SharedPost) : Option String := none

/-- Template-literal interpolation of a possibly-`undefined` value. -/
def jsShow : Option String → String
  | some s => s
  | none => "undefined"

/-- The system context of `generateContentPrompt` (scheduled/daily
generation): identity sentence, then one `- ${post.content}` line per
entry of the last 10 posts-log records, then one `- ${prompt.content}`
line per entry of the last 5 prompts-log records. -/
def buildDailyContext (posts : List SharedPost) (prompts : List GeneratedPrompt) :
    String :=
  let base := identityContext
  let c1 :=
    if posts.length > 0 then
      base ++ "\n\nHere are some recent successful posts from the team:\n" ++
        String.join ((lastN 10 posts).map (fun p => "- " ++ jsShow p.contentProp ++ "\n"))
    else base
  if prompts.length > 0 then
    c1 ++ "\n\nAvoid repeating these recent prompts:\n" ++
      String.join ((lastN 5 prompts).map (fun p => "- " ++ p.content ++ "\n"))
  else c1

/-- The system context of `generateCustomContent`: identity sentence,
then one `- ${post.messageText.substring(0, 100)}` line per entry of the
last 5 posts-log records whose `messageText` is truthy (non-empty). -/
def buildCustomContext (posts : List SharedPost) : String :=
  let base := identityContext
  if posts.length > 0 then
    base ++ "\n\nRecent team posts:\n" ++
      String.join ((lastN 5 posts).map (fun p =>
        if p.messageText ≠ "" then "- " ++ take100 p.messageText ++ "\n" else ""))
  else base

/-! ## Image prompt heuristic and Content Generator (§4.3, §4.4) -/

def imgPromptIphoneAndroid : String :=
  "Professional infographic comparing iPhone vs Android messaging statistics, split-screen design with phone silhouettes, clean charts showing engagement rates, modern blue and white color scheme, business style"

def imgPromptData : String :=
  "Professional business chart or infographic about SMS messaging and customer communication, clean design, corporate colors, data visualization"

def imgPromptComparison : String :=
  "Professional comparison infographic for business messaging, side-by-side layout, clean corporate design, blue and white theme"

def imgPromptGeneric (request : String) : String :=
  "Professional LinkedIn post graphic about " ++ request ++
    ", business style infographic, clean design, corporate blue and white colors, modern layout"

/-- The keyword heuristic deriving the image-generation instruction from
the request text: four mutually exclusive if/else-if branches, first
match wins, substring tests on the lower-cased request. -/
def imagePromptFor (request : String) : String :=
  if strIncludes (lowerStr request) "iphone" && strIncludes (lowerStr request) "android" then
    imgPromptIphoneAndroid
  else if strIncludes (lowerStr request) "chart" || strIncludes (lowerStr request) "graph" ||
      strIncludes (lowerStr request) "data" then
    imgPromptData
  else if strIncludes (lowerStr request) "comparison" then
    imgPromptComparison
  else
    imgPromptGeneric request

/-- Result record of `generateCustomContent`:
`{ textContent, imageUrl, imagePrompt }`. -/
structure CustomResult where
  textContent : String
  imageUrl : Option String
  imagePrompt : String
deriving DecidableEq, Repr

def customFallbackText : String :=
  "📱 **iPhone vs Android Users - Post Idea**\n\nHook: \"The SMS behavior difference between iPhone and Android users might surprise you...\"\n\nKey Points:\n• iPhone users: 95% open rate, prefer shorter messages\n• Android users: 88% open rate, engage more with rich media\n• Timing matters: iPhone users respond faster (avg 3 min vs 8 min)\n\nHashtags: #MobileMessaging #SMS #CustomerEngagement #SendBlue\n\nCTA: \"What patterns have you noticed with your mobile users? Share your insights below! 👇\""

/-- The hardcoded fallback object `generateCustomContent` returns from
its `catch` branch. -/
def customFallbackResult : CustomResult :=
  { textContent := customFallbackText
    imageUrl := none
    imagePrompt := "Professional iPhone vs Android comparison infographic" }

def customUserMsg (request : String) : String :=
  "Create a LinkedIn post concept: \"" ++ request ++
    "\"\n\nProvide:\n1. Hook/angle\n2. Key points\n3. Hashtags\n4. Call-to-action\n\nAlso suggest a detailed image description for a professional graphic that would accompany this post."

/-- `generateCustomContent(request)`.  `textApi` is the chat-completion
call (applied to the system context and the user message); `imageApi` is
the DALL-E call (applied to the image prompt).  A text failure lands in
the outer `catch` and returns the fallback object without attempting the
image; an image failure is caught by the inner `catch` and only leaves
`imageUrl` at `null`. -/
def generateCustomContent (posts : List SharedPost) (request : String)
    (textApi : String → String → ApiResult String)
    (imageApi : String → ApiResult String) : CustomResult :=
  let context := buildCustomContext posts
  match textApi context (customUserMsg request) with
  | .err => customFallbackResult
  | .ok textContent =>
    let imagePrompt := imagePromptFor request
    let imageUrl : Option String :=
      match imageApi imagePrompt with
      | .ok url => some url
      | .err => none
    { textContent := textContent, imageUrl := imageUrl, imagePrompt := imagePrompt }

def dailyUserMsg : String :=
  "Generate a specific, actionable LinkedIn post idea that would be valuable for a sales team member to share. Include the angle/hook and 2-3 bullet points on what to include. Make it relevant to messaging/SMS/API space or general sales insights."

/-- The hardcoded daily fallback string returned from the `catch` of
`generateContentPrompt`. -/
def dailyFallback : String :=
  "💡 **Daily LinkedIn Prompt**\n\nShare a quick tip about how businesses can improve their customer communication. What\x27s one SMS/messaging mistake you see companies make, and how can they fix it?\n\n• Include a real example (anonymized)\n• Add your perspective on why it matters\n• End with a question to encourage engagement"

/-- `generateContentPrompt()`: build the daily context from the two logs
and call the completion API; on failure return the fixed fallback. -/
def generateContentPrompt (posts : List SharedPost) (prompts : List GeneratedPrompt)
    (textApi : String → String → ApiResult String) : String :=
  let context := buildDailyContext posts prompts
  match textApi context dailyUserMsg with
  | .ok content => content
  | .err => dailyFallback

def dailyMessageText (prompt : String) : String :=
  "🚀 **Daily LinkedIn Content Idea**\n\n" ++ prompt ++
    "\n\n_Once you post, share your LinkedIn URL in this thread so the team can engage! 💪_"

/-- `postDailyPrompt(channelId)`: generate (never fails), post to the
channel, then push `{id: result.ts, content, timestamp, channel}` onto
the prompts log and save.  If the post call throws, the `catch` logs and
nothing is appended.  Returns the prompts log passed to `saveData` and
the timestamp of the posted message, if any. -/
def postDailyPrompt (channelId now : String)
    (textApi : String → String → ApiResult String)
    (postApi : String → ApiResult String)
    (posts : List SharedPost) (prompts : List GeneratedPrompt) :
    List GeneratedPrompt × Option String :=
  let prompt := generateContentPrompt posts prompts textApi
  match postApi (dailyMessageText prompt) with
  | .err => (prompts, none)
  | .ok ts =>
    (prompts ++ [{ id := ts, content := prompt, request := none, type := none,
                   imageUrl := none, imagePrompt := none, timestamp := now,
                   channel := channelId }], some ts)

/-! ## Engagement Listener (`app.message` handler, §4.5) -/

/-- An inbound Slack message event.  `text` is optional: some event
subtypes carry no `text` field, which the handler reads through optional
chaining (`message.text?.match(...)`). -/
structure SlackMessage where
  text : Option String
  user : String
  ts : String
  channel : String
deriving DecidableEq, Repr

/-- A successful `reactions.add` API call: channel, message timestamp,
emoji name. -/
structure ReactionCall where
  channel : String
  timestamp : String
  name : String
deriving DecidableEq, Repr

/-- A successful threaded `say` call: text and thread anchor. -/
structure ReplyCall where
  text : String
  thread_ts : String
deriving DecidableEq, Repr

/-- Observable outcome of one `app.message` handler invocation:
reactions added, posts file content afterwards (the initial file holds
`posts`), replies posted, and whether any `console.error` fired.  The
handler never throws: every failure is caught (totality of this
function). -/
structure ListenerOutcome where
  reactions : List ReactionCall
  fileAfter : List SharedPost
  replies : List ReplyCall
  errorLogged : Bool
deriving DecidableEq, Repr

def replyText (firstUrl : String) : String :=
  "Great post! 🎉 Team, show some love on this LinkedIn post: " ++ firstUrl

/-- One `SharedPost` per matched URL, pushed in match order.  Each push
evaluates `new Date().toISOString()` anew: `clock i` is the value of the
`i`-th call within this invocation. -/
def mkSharedPosts (clock : Nat → String) (user channel text : String) :
    Nat → List String → List SharedPost
  | _, [] => []
  | i, u :: us =>
    { url := u, userId := user, timestamp := clock i, channel := channel,
      messageText := text } :: mkSharedPosts clock user channel text (i + 1) us

/-- The `app.message` handler.  `reactOk`, `saveOk`, `replyOk` say
whether the three external effects (the `reactions.add` call, the
`fs.writeFile` inside `saveData`, the threaded `say`) succeed.  The
reaction failure throws into the handler's `catch`, aborting the rest;
the write failure is swallowed inside `saveData` (log and continue); the
reply failure throws into the `catch` after the save. -/
def handleMessage (reactOk saveOk replyOk : Bool) (clock : Nat → String)
    (m : SlackMessage) (posts : List SharedPost) : ListenerOutcome :=
  match m.text with
  | none => { reactions := [], fileAfter := posts, replies := [], errorLogged := false }
  | some t =>
    match linkedinUrlMatches t with
    | [] => { reactions := [], fileAfter := posts, replies := [], errorLogged := false }
    | u :: us =>
      if reactOk then
        let newRecords := mkSharedPosts clock m.user m.channel t 0 (u :: us)
        let fileAfter := if saveOk then posts ++ newRecords else posts
        if replyOk then
          { reactions := [{ channel := m.channel, timestamp := m.ts, name := "link" }]
            fileAfter := fileAfter
            replies := [{ text := replyText u, thread_ts := m.ts }]
            errorLogged := !saveOk }
        else
          { reactions := [{ channel := m.channel, timestamp := m.ts, name := "link" }]
            fileAfter := fileAfter
            replies := []
            errorLogged := true }
      else
        { reactions := [], fileAfter := posts, replies := [], errorLogged := true }

/-! ## `/linkedin-machine` command handler (§4.6) -/

def usageHint : String :=
  "Please provide a specific request! For example:\n• \x60/linkedin-machine give me post ideas about iPhone vs Android users\x60\n• \x60/linkedin-machine create a post about SMS delivery rates with an infographic idea\x60\n• \x60/linkedin-machine help me write about customer success stories\x60"

def loadingNotice : String :=
  "🎨 Generating your custom LinkedIn content and image... this may take a moment!"

def customPostText (textContent : String) : String :=
  "🎯 **Custom LinkedIn Content**\n\n" ++ textContent

def cmdErrorReply : String :=
  "Sorry, I had trouble generating that content. Please try again!"

/-- Observable outcome of one `/linkedin-machine` invocation (after the
mandatory `ack`): ephemeral responses sent, whether the generation
pipeline was invoked at all, the text posted to the channel (if the post
call was reached and succeeded), and the prompts log passed to
`saveData`. -/
structure CmdOutcome where
  responses : List String
  genCalled : Bool
  posted : Option String
  promptsAfter : List GeneratedPrompt
  errorLogged : Bool
deriving DecidableEq, Repr

/-- The `/linkedin-machine` handler.  `newId` models
`Date.now().toString()`, `now` models `new Date().toISOString()`,
`postOk` whether `chat.postMessage` succeeds.  An empty trimmed request
short-circuits with the usage hint: no generation call, no log append. -/
def linkedinMachineHandler (cmdText channelId newId now : String)
    (textApi : String → String → ApiResult String)
    (imageApi : String → ApiResult String)
    (postOk : Bool)
    (posts : List SharedPost) (prompts : List GeneratedPrompt) : CmdOutcome :=
  let request := jsTrim cmdText
  if request = "" then
    { responses := [usageHint], genCalled := false, posted := none,
      promptsAfter := prompts, errorLogged := false }
  else
    let result := generateCustomContent posts request textApi imageApi
    if postOk then
      { responses := [loadingNotice]
        genCalled := true
        posted := some (customPostText result.textContent)
        promptsAfter := prompts ++
          [{ id := newId, content := result.textContent, request := some request,
             type := some "custom", imageUrl := some result.imageUrl,
             imagePrompt := some result.imagePrompt, timestamp := now,
             channel := channelId }]
        errorLogged := false }
    else
      { responses := [loadingNotice, cmdErrorReply], genCalled := true,
        posted := none, promptsAfter := prompts, errorLogged := true }

/-! ## Facts about the records pushed by the listener -/

theorem mkSharedPosts_length (clock : Nat → String) (user channel text : String) :
    ∀ (i : Nat) (urls : List String),
    (mkSharedPosts clock user channel text i urls).length = urls.length := by
  intro i urls
  induction urls generalizing i with
  | nil => rfl
  | cons u us ih => simp [mkSharedPosts, ih]

theorem mkSharedPosts_map_url (clock : Nat → String) (user channel text : String) :
    ∀ (i : Nat) (urls : List String),
    (mkSharedPosts clock user channel text i urls).map SharedPost.url = urls := by
  intro i urls
  induction urls generalizing i with
  | nil => rfl
  | cons u us ih => simp [mkSharedPosts, ih]

theorem mkSharedPosts_mem (clock : Nat → String) (user channel text : String) :
    ∀ (i : Nat) (urls : List String) (p : SharedPost),
    p ∈ mkSharedPosts clock user channel text i urls →
    p.userId = user ∧ p.channel = channel ∧ p.messageText = text ∧
      ∃ j, p.timestamp = clock j := by
  intro i urls
  induction urls generalizing i with
  | nil => intro p hp; simp [mkSharedPosts] at hp
  | cons u us ih =>
    intro p hp
    simp only [mkSharedPosts, List.mem_cons] at hp
    rcases hp with rfl | hp
    · exact ⟨rfl, rfl, rfl, i, rfl⟩
    · exact ih (i + 1) p hp

/-! ## The claims -/

/-- C3: The image-prompt heuristic is a total, deterministic function
from request text to an instruction string: the same request always
yields the same instruction; its four branches are evaluated
first-match-wins in the fixed order (1) both "iphone" and "android"
present (case-insensitive) yields the comparison-infographic instruction
regardless of any other keywords, (2) "chart" or "graph" or "data"
present yields the data-visualization instruction, (3) "comparison"
present yields the comparison-layout instruction, (4) otherwise the
generic templated instruction embedding the raw request. -/
theorem C3_imageHeuristic :
    (∀ r₁ r₂ : String, r₁ = r₂ → imagePromptFor r₁ = imagePromptFor r₂) ∧
    (∀ r : String, strIncludes (lowerStr r) "iphone" = true →
        strIncludes (lowerStr r) "android" = true →
        imagePromptFor r = imgPromptIphoneAndroid) ∧
    (∀ r : String,
        (strIncludes (lowerStr r) "iphone" && strIncludes (lowerStr r) "android") = false →
        (strIncludes (lowerStr r) "chart" || strIncludes (lowerStr r) "graph" ||
          strIncludes (lowerStr r) "data") = true →
        imagePromptFor r = imgPromptData) ∧
    (∀ r : String,
        (strIncludes (lowerStr r) "iphone" && strIncludes (lowerStr r) "android") = false →
        (strIncludes (lowerStr r) "chart" || strIncludes (lowerStr r) "graph" ||
          strIncludes (lowerStr r) "data") = false →
        strIncludes (lowerStr r) "comparison" = true →
        imagePromptFor r = imgPromptComparison) ∧
    (∀ r : String,
        (strIncludes (lowerStr r) "iphone" && strIncludes (lowerStr r) "android") = false →
        (strIncludes (lowerStr r) "chart" || strIncludes (lowerStr r) "graph" ||
          strIncludes (lowerStr r) "data") = false →
        strIncludes (lowerStr r) "comparison" = false →
        imagePromptFor r = imgPromptGeneric r) := by
  refine ⟨fun r₁ r₂ h => by rw [h], ?_, ?_, ?_, ?_⟩
  · intro r h1 h2
    simp [imagePromptFor, h1, h2]
  · intro r h1 h2
    simp [imagePromptFor, h1, h2]
  · intro r h1 h2 h3
    simp [imagePromptFor, h1, h2, h3]
  · intro r h1 h2 h3
    simp [imagePromptFor, h1, h2, h3]

/-- Witness for C3: a request containing "iPhone", "ANDROID", "data",
"chart" and "comparison" in mixed casing takes the first branch, and one
containing "data" and "comparison" but no phone keywords takes the
second. -/
theorem C3_imageHeuristic_witness :
    (strIncludes (lowerStr "iPhone vs ANDROID data chart comparison") "iphone" = true ∧
     strIncludes (lowerStr "iPhone vs ANDROID data chart comparison") "android" = true ∧
     imagePromptFor "iPhone vs ANDROID data chart comparison" = imgPromptIphoneAndroid) ∧
    ((strIncludes (lowerStr "show data comparison") "iphone" &&
        strIncludes (lowerStr "show data comparison") "android") = false ∧
     (strIncludes (lowerStr "show data comparison") "chart" ||
        strIncludes (lowerStr "show data comparison") "graph" ||
        strIncludes (lowerStr "show data comparison") "data") = true ∧
     imagePromptFor "show data comparison" = imgPromptData) :=
  ⟨⟨by decide, by decide,
    C3_imageHeuristic.2.1 "iPhone vs ANDROID data chart comparison" (by decide) (by decide)⟩,
   ⟨by decide, by decide,
    C3_imageHeuristic.2.2.1 "show data comparison" (by decide) (by decide)⟩⟩

/-- C4: For every custom-command invocation whose request text is empty
or whitespace-only after trimming, the handler responds with the usage
hint and returns: no generation-service call is made and no
GeneratedPrompt record is appended to the prompts log. -/
theorem C4_emptyRequest (cmdText channelId newId now : String)
    (textApi : String → String → ApiResult String)
    (imageApi : String → ApiResult String) (postOk : Bool)
    (posts : List SharedPost) (prompts : List GeneratedPrompt)
    (h : jsTrim cmdText = "") :
    linkedinMachineHandler cmdText channelId newId now textApi imageApi postOk
        posts prompts =
      { responses := [usageHint], genCalled := false, posted := none,
        promptsAfter := prompts, errorLogged := false } := by
  simp [linkedinMachineHandler, h]

/-- Witness for C4: a whitespace-only command text. -/
theorem C4_emptyRequest_witness :
    jsTrim " \t  " = "" ∧
    linkedinMachineHandler " \t  " "C1" "1700000000000" "T0"
        (fun _ _ => .err) (fun _ => .err) true [] [] =
      { responses := [usageHint], genCalled := false, posted := none,
        promptsAfter := [], errorLogged := false } :=
  ⟨by decide,
   C4_emptyRequest " \t  " "C1" "1700000000000" "T0" _ _ true [] [] (by decide)⟩

/-- C8: For every custom-generation run in which the text completion
succeeds but the image-generation call fails, `generateCustomContent`
never throws (it is a total function) and returns a result whose
`textContent` is the successfully generated text (the fallback is not
substituted), whose `imageUrl` is `null`, and whose `imagePrompt` is the
heuristic instruction string. -/
theorem C8_imageFailureIsolated (posts : List SharedPost) (request t : String)
    (textApi : String → String → ApiResult String)
    (imageApi : String → ApiResult String)
    (htext : textApi (buildCustomContext posts) (customUserMsg request) = .ok t)
    (himg : imageApi (imagePromptFor request) = .err) :
    generateCustomContent posts request textApi imageApi =
      { textContent := t, imageUrl := none, imagePrompt := imagePromptFor request } := by
  simp [generateCustomContent, htext, himg]

/-- Witness for C8 at a concrete request and succeeding text backend. -/
theorem C8_imageFailureIsolated_witness :
    generateCustomContent [] "hello world" (fun _ _ => .ok "TEXT") (fun _ => .err) =
      { textContent := "TEXT", imageUrl := none,
        imagePrompt := imagePromptFor "hello world" } :=
  C8_imageFailureIsolated [] "hello world" "TEXT" _ _ rfl rfl

/-- C10: For every inbound message event whose text field is absent, the
Engagement Listener is a total no-op: optional chaining yields no
matches, the handler raises no error (totality), appends no record, adds
no reaction, and posts no reply — whatever the outcome of the external
steps would have been. -/
theorem C10_noTextNoOp (reactOk saveOk replyOk : Bool) (clock : Nat → String)
    (m : SlackMessage) (posts : List SharedPost) (h : m.text = none) :
    handleMessage reactOk saveOk replyOk clock m posts =
      { reactions := [], fileAfter := posts, replies := [], errorLogged := false } := by
  simp [handleMessage, h]

/-- Witness for C10 at a concrete text-less message. -/
theorem C10_noTextNoOp_witness :
    handleMessage true true true (fun _ => "T0")
        { text := none, user := "U1", ts := "111.1", channel := "C1" } [] =
      { reactions := [], fileAfter := [], replies := [], errorLogged := false } :=
  C10_noTextNoOp true true true _ _ [] rfl

/-- C2: For every invocation of a Content Generator entry point in which
the generation backend fails (throws), the function never raises to its
caller (it is a total function) and returns the fixed, hardcoded
fallback designated for that entry point; and when invoked through the
posting pipeline (the daily post, or the `/linkedin-machine` handler)
with the chat-post call succeeding, that fallback content is still
appended to the prompts log as a GeneratedPrompt record. -/
theorem C2_fallbackOnBackendFailure :
    (∀ (posts : List SharedPost) (prompts : List GeneratedPrompt)
        (textApi : String → String → ApiResult String),
      (∀ c u, textApi c u = .err) →
      generateContentPrompt posts prompts textApi = dailyFallback) ∧
    (∀ (posts : List SharedPost) (request : String)
        (textApi : String → String → ApiResult String)
        (imageApi : String → ApiResult String),
      (∀ c u, textApi c u = .err) →
      generateCustomContent posts request textApi imageApi = customFallbackResult) ∧
    (∀ (channelId now ts : String)
        (textApi : String → String → ApiResult String)
        (postApi : String → ApiResult String)
        (posts : List SharedPost) (prompts : List GeneratedPrompt),
      (∀ c u, textApi c u = .err) →
      postApi (dailyMessageText dailyFallback) = .ok ts →
      postDailyPrompt channelId now textApi postApi posts prompts =
        (prompts ++ [{ id := ts, content := dailyFallback, request := none,
                       type := none, imageUrl := none, imagePrompt := none,
                       timestamp := now, channel := channelId }], some ts)) ∧
    (∀ (cmdText channelId newId now : String)
        (textApi : String → String → ApiResult String)
        (imageApi : String → ApiResult String)
        (posts : List SharedPost) (prompts : List GeneratedPrompt),
      jsTrim cmdText ≠ "" →
      (∀ c u, textApi c u = .err) →
      linkedinMachineHandler cmdText channelId newId now textApi imageApi true
          posts prompts =
        { responses := [loadingNotice]
          genCalled := true
          posted := some (customPostText customFallbackText)
          promptsAfter := prompts ++
            [{ id := newId, content := customFallbackText,
               request := some (jsTrim cmdText), type := some "custom",
               imageUrl := some none,
               imagePrompt := some "Professional iPhone vs Android comparison infographic",
               timestamp := now, channel := channelId }]
          errorLogged := false }) := by
  refine ⟨?_, ?_, ?_, ?_⟩
  · intro posts prompts textApi herr
    simp [generateContentPrompt, herr]
  · intro posts request textApi imageApi herr
    simp [generateCustomContent, herr]
  · intro channelId now ts textApi postApi posts prompts herr hpost
    simp [postDailyPrompt, generateContentPrompt, herr, hpost]
  · intro cmdText channelId newId now textApi imageApi posts prompts hne herr
    simp [linkedinMachineHandler, hne, generateCustomContent, herr,
      customFallbackResult]

/-- Witness for C2 with an always-failing text backend, a succeeding
chat post, and a non-empty command text. -/
theorem C2_fallbackOnBackendFailure_witness :
    generateContentPrompt [] [] (fun _ _ => .err) = dailyFallback ∧
    generateCustomContent [] "topic" (fun _ _ => .err) (fun _ => .err) =
      customFallbackResult ∧
    postDailyPrompt "C1" "T0" (fun _ _ => .err) (fun _ => .ok "1700.1") [] [] =
      ([{ id := "1700.1", content := dailyFallback, request := none, type := none,
          imageUrl := none, imagePrompt := none, timestamp := "T0",
          channel := "C1" }], some "1700.1") ∧
    jsTrim "topic" ≠ "" ∧
    linkedinMachineHandler "topic" "C1" "1700000000000" "T0"
        (fun _ _ => .err) (fun _ => .err) true [] [] =
      { responses := [loadingNotice]
        genCalled := true
        posted := some (customPostText customFallbackText)
        promptsAfter :=
          [{ id := "1700000000000", content := customFallbackText,
             request := some (jsTrim "topic"), type := some "custom",
             imageUrl := some none,
             imagePrompt := some "Professional iPhone vs Android comparison infographic",
             timestamp := "T0", channel := "C1" }]
        errorLogged := false } :=
  ⟨C2_fallbackOnBackendFailure.1 [] [] _ (fun _ _ => rfl),
   C2_fallbackOnBackendFailure.2.1 [] "topic" _ _ (fun _ _ => rfl),
   C2_fallbackOnBackendFailure.2.2.1 "C1" "T0" "1700.1" _ _ [] [] (fun _ _ => rfl) rfl,
   by decide,
   C2_fallbackOnBackendFailure.2.2.2 "topic" "C1" "1700000000000" "T0" _ _ [] []
     (by decide) (fun _ _ => rfl)⟩

/-- C6: Round-trip of the Persistent Log Store under non-concurrent
access: for every sequence of records (of either record kind), saving
the sequence with `saveData` and then loading it with `loadData` yields
the same records in the same order, with no reordering and no loss. -/
theorem C6_roundTrip :
    (∀ posts : List SharedPost,
      loadData (some (saveData (postsJson posts))) = postsJson posts) ∧
    (∀ prompts : List GeneratedPrompt,
      loadData (some (saveData (promptsJson prompts))) = promptsJson prompts) ∧
    (∀ posts : List SharedPost,
      (JItems.ofList (posts.map SharedPost.toJson)).length = posts.length) ∧
    (∀ prompts : List GeneratedPrompt,
      (JItems.ofList (prompts.map GeneratedPrompt.toJson)).length = prompts.length) :=
  ⟨fun posts => loadData_saveData _ (wfJ_postsJson posts),
   fun prompts => loadData_saveData _ (wfJ_promptsJson prompts),
   fun posts => by simp [JItems.length_ofList],
   fun prompts => by simp [JItems.length_ofList]⟩

/-- C7: The Persistent Log Store silently degrades and never raises to
callers (the model functions are total): for every backing-store state
that is absent or unreadable (`none`) or malformed (`JSON.parse`
rejects), `loadData` returns the empty sequence `[]` rather than an
error; and for every save failure, `saveData` logs to the console and
otherwise no-ops, leaving the file unchanged, while a successful save
overwrites the whole file. -/
theorem C7_silentDegrade :
    loadData none = Json.arr .nil ∧
    (∀ s : String, parseTop s.data = none → loadData (some s) = Json.arr .nil) ∧
    (∀ (content : String) (file : Option String),
      saveDataFs false content file = (file, true)) ∧
    (∀ (content : String) (file : Option String),
      saveDataFs true content file = (some content, false)) := by
  refine ⟨rfl, ?_, fun c f => rfl, fun c f => rfl⟩
  intro s h
  simp [loadData, h]

/-- Witness for C7 at a malformed backing file. -/
theorem C7_silentDegrade_witness :
    parseTop ("not json").data = none ∧
    loadData (some "not json") = Json.arr .nil :=
  ⟨by decide, C7_silentDegrade.2.1 "not json" (by decide)⟩

/-- C1 (counterexample to the claim as stated): a message with two
matched URLs handled while the clock advances between the two
`new Date().toISOString()` calls yields two appended records (one per
URL) whose metadata is NOT identical except for `url`: their `timestamp`
fields differ, because each `posts.push` evaluates `new Date()` anew. -/
theorem C1_counterexample :
    (handleMessage true true true (fun i => toString i)
        { text := some "https://linkedin.com/posts/a https://linkedin.com/posts/b",
          user := "U1", ts := "111.1", channel := "C1" } []).fileAfter.length = 2 ∧
    ¬ (∀ p₁ ∈ (handleMessage true true true (fun i => toString i)
          { text := some "https://linkedin.com/posts/a https://linkedin.com/posts/b",
            user := "U1", ts := "111.1", channel := "C1" } []).fileAfter,
       ∀ p₂ ∈ (handleMessage true true true (fun i => toString i)
          { text := some "https://linkedin.com/posts/a https://linkedin.com/posts/b",
            user := "U1", ts := "111.1", channel := "C1" } []).fileAfter,
       p₁.timestamp = p₂.timestamp) := by decide

/-- C1 (amended): for every inbound chat message with text, the
Engagement Listener's effects are a function of the list of matches of
the LinkedIn URL pattern: with zero matches nothing happens; with `k ≥ 1`
matches (and the external steps succeeding), exactly `k` SharedPost
records are appended in match order — one per matched URL, with
identical `userId`, `channel` and `messageText`, each taking its
`timestamp` from its own clock reading (so identical whenever the clock
does not advance during the loop) — exactly one reaction is added (not
one per URL), and exactly one threaded reply is posted referencing only
the first matched URL in source order. -/
theorem C1_amended (clock : Nat → String) (m : SlackMessage) (posts : List SharedPost)
    (t : String) (h : m.text = some t) :
    (linkedinUrlMatches t = [] →
      handleMessage true true true clock m posts =
        { reactions := [], fileAfter := posts, replies := [], errorLogged := false }) ∧
    (∀ (u : String) (us : List String), linkedinUrlMatches t = u :: us →
      handleMessage true true true clock m posts =
        { reactions := [{ channel := m.channel, timestamp := m.ts, name := "link" }]
          fileAfter := posts ++ mkSharedPosts clock m.user m.channel t 0 (u :: us)
          replies := [{ text := replyText u, thread_ts := m.ts }]
          errorLogged := false } ∧
      (posts ++ mkSharedPosts clock m.user m.channel t 0 (u :: us)).length =
        posts.length + (u :: us).length ∧
      (mkSharedPosts clock m.user m.channel t 0 (u :: us)).map SharedPost.url = u :: us ∧
      (∀ p ∈ mkSharedPosts clock m.user m.channel t 0 (u :: us),
        p.userId = m.user ∧ p.channel = m.channel ∧ p.messageText = t ∧
          ∃ j, p.timestamp = clock j) ∧
      ((∀ i j, clock i = clock j) →
        ∀ p₁ ∈ mkSharedPosts clock m.user m.channel t 0 (u :: us),
        ∀ p₂ ∈ mkSharedPosts clock m.user m.channel t 0 (u :: us),
          p₁.timestamp = p₂.timestamp)) := by
  constructor
  · intro hnil
    simp [handleMessage, h, hnil]
  · intro u us hu
    refine ⟨by simp [handleMessage, h, hu], ?_, mkSharedPosts_map_url _ _ _ _ _ _, ?_, ?_⟩
    · simp [mkSharedPosts_length]
    · intro p hp
      exact mkSharedPosts_mem _ _ _ _ _ _ p hp
    · intro hc p₁ h₁ p₂ h₂
      obtain ⟨-, -, -, j₁, e₁⟩ := mkSharedPosts_mem _ _ _ _ _ _ p₁ h₁
      obtain ⟨-, -, -, j₂, e₂⟩ := mkSharedPosts_mem _ _ _ _ _ _ p₂ h₂
      rw [e₁, e₂, hc j₁ j₂]

/-- Witness for C1 at the spec's own scenario: one URL, constant clock —
one record with that URL, one reaction, one reply citing the URL. -/
theorem C1_amended_witness :
    handleMessage true true true (fun _ => "T0")
        { text := some "check this out https://linkedin.com/posts/abc123-xyz",
          user := "U1", ts := "111.1", channel := "C1" } [] =
      { reactions := [{ channel := "C1", timestamp := "111.1", name := "link" }]
        fileAfter := [{ url := "https://linkedin.com/posts/abc123-xyz", userId := "U1",
                        timestamp := "T0", channel := "C1",
                        messageText := "check this out https://linkedin.com/posts/abc123-xyz" }]
        replies := [{ text := replyText "https://linkedin.com/posts/abc123-xyz",
                      thread_ts := "111.1" }]
        errorLogged := false } := by
  have h := ((C1_amended (fun _ => "T0")
      { text := some "check this out https://linkedin.com/posts/abc123-xyz",
        user := "U1", ts := "111.1", channel := "C1" } []
      "check this out https://linkedin.com/posts/abc123-xyz" rfl).2
      "https://linkedin.com/posts/abc123-xyz" [] (by decide)).1
  rw [h]
  simp [mkSharedPosts]

/-- C9 (counterexample to the claim as stated): when the persistence
write inside `saveData` fails, that step's failure does NOT abort the
remaining steps — the error is swallowed inside `saveData` and the
threaded reply is still posted, even though the records were lost. -/
theorem C9_counterexample :
    handleMessage true false true (fun _ => "T0")
        { text := some "https://linkedin.com/posts/abc", user := "U1", ts := "111.1",
          channel := "C1" } [] =
      { reactions := [{ channel := "C1", timestamp := "111.1", name := "link" }]
        fileAfter := []
        replies := [{ text := replyText "https://linkedin.com/posts/abc",
                      thread_ts := "111.1" }]
        errorLogged := true } := by decide

/-- C9 (amended): within one Engagement Listener invocation on a message
with at least one URL match: a failure of the reaction step aborts all
remaining steps (no record appended, no reply, posts log unchanged); if
the save has succeeded and only the reply step fails, the appended
records remain in the log and no reply is posted; a failure of the
persistence write alone is swallowed inside `saveData` (log-and-continue)
and the reply is still posted; in every case the failure is logged and
does not propagate out of the handler (the model is total). -/
theorem C9_amended (saveOk replyOk : Bool) (clock : Nat → String) (m : SlackMessage)
    (posts : List SharedPost) (t u : String) (us : List String)
    (h : m.text = some t) (hu : linkedinUrlMatches t = u :: us) :
    (handleMessage false saveOk replyOk clock m posts =
      { reactions := [], fileAfter := posts, replies := [], errorLogged := true }) ∧
    (handleMessage true true false clock m posts =
      { reactions := [{ channel := m.channel, timestamp := m.ts, name := "link" }]
        fileAfter := posts ++ mkSharedPosts clock m.user m.channel t 0 (u :: us)
        replies := []
        errorLogged := true }) ∧
    (handleMessage true false true clock m posts =
      { reactions := [{ channel := m.channel, timestamp := m.ts, name := "link" }]
        fileAfter := posts
        replies := [{ text := replyText u, thread_ts := m.ts }]
        errorLogged := true }) :=
  ⟨by simp [handleMessage, h, hu],
   by simp [handleMessage, h, hu],
   by simp [handleMessage, h, hu]⟩

/-- Witness for C9 at a concrete message: reply failure after a
successful save leaves the appended record in the log. -/
theorem C9_amended_witness :
    handleMessage true true false (fun _ => "T0")
        { text := some "https://linkedin.com/posts/abc", user := "U1", ts := "111.1",
          channel := "C1" } [] =
      { reactions := [{ channel := "C1", timestamp := "111.1", name := "link" }]
        fileAfter := [{ url := "https://linkedin.com/posts/abc", userId := "U1",
                        timestamp := "T0", channel := "C1",
                        messageText := "https://linkedin.com/posts/abc" }]
        replies := []
        errorLogged := true } := by
  have h := (C9_amended true false (fun _ => "T0")
      { text := some "https://linkedin.com/posts/abc", user := "U1", ts := "111.1",
        channel := "C1" } [] "https://linkedin.com/posts/abc"
      "https://linkedin.com/posts/abc" [] rfl (by decide)).2.1
  rw [h]
  simp [mkSharedPosts]

/-- C5 (behavior at the failing input): the scheduled-generation context
does NOT contain the text of the posts-log entries.  The daily context
builder reads `post.content`, a key that SharedPost records do not have,
so each of the last-10 lines renders as `- undefined`; the message text
never appears.  The custom-generation context, built from
`post.messageText`, does contain it — the two builders diverge on the
same record. -/
theorem C5_dailyContextReadsMissingField :
    buildDailyContext
        [{ url := "https://linkedin.com/posts/abc123-xyz", userId := "U1",
           timestamp := "T0", channel := "C1",
           messageText := "check this out https://linkedin.com/posts/abc123-xyz" }] [] =
      identityContext ++ "\n\nHere are some recent successful posts from the team:\n" ++
        "- undefined\n" ∧
    strIncludes
      (buildDailyContext
        [{ url := "https://linkedin.com/posts/abc123-xyz", userId := "U1",
           timestamp := "T0", channel := "C1",
           messageText := "check this out https://linkedin.com/posts/abc123-xyz" }] [])
      "check this out" = false ∧
    buildCustomContext
        [{ url := "https://linkedin.com/posts/abc123-xyz", userId := "U1",
           timestamp := "T0", channel := "C1",
           messageText := "check this out https://linkedin.com/posts/abc123-xyz" }] =
      identityContext ++ "\n\nRecent team posts:\n" ++
        "- check this out https://linkedin.com/posts/abc123-xyz\n" := by decide

end LinkedinMachine
